import Mathlib

/-!
Verification development for the `cs-546-grader` automatic grading framework.

The definitions below are a shallow embedding of the current sources
(`Grader.js`, `index.js`, `Utils.js`): the per-submission grader state, the
scoring ledger (`deductPoints`), the assertion engine (`assertDeepEquals`,
`assertDeepEqualsOptions`, `assertThrows`, `assertWithoutId`,
`assertRequestDeepEqualsWithoutId`), the lifecycle (`checks`, `start`,
`setupDatabase`, `run`, `cleanup`) and the batch orchestration loop of
`autoGrade`.  JavaScript numbers are modelled as `Int`, JS strings as
`String`, JSON values as an inductive `JsValue`, and nullable values as
`Option`.  Outcomes of calls into external collaborators (the file system,
`npm`, the MongoDB driver, the spawned subprocess) are supplied as explicit
oracle fields of a `Submission`, since the repository consumes them through
narrow interfaces.
-/

/-- JavaScript string truthiness for an optional string: `undefined`/absent
and the empty string are falsy, every other string is truthy. -/
def jsTruthyStr (s : Option String) : Bool :=
  match s with
  | none => false
  | some v => !(v == "")

/-- JavaScript `a || b` for an optional string `a` and a string default `b`
(the empty string is falsy and also falls through to the default). -/
def jsOrStr (a : Option String) (b : String) : String :=
  match a with
  | none => b
  | some v => if v == "" then b else v

/-- Substring check on character lists; models JavaScript
`String.prototype.includes` (used for the `node_modules` path test). -/
def listIncludes : List Char → List Char → Bool
  | [], pat => pat.isEmpty
  | c :: rest, pat => pat.isPrefixOf (c :: rest) || listIncludes rest pat

/-- Models JavaScript `haystack.includes(needle)`. -/
def strIncludes (haystack needle : String) : Bool :=
  listIncludes haystack.toList needle.toList

/-- Models JavaScript `Array.prototype.join(sep)`. -/
def joinWith (sep : String) : List String → String
  | [] => ""
  | [a] => a
  | a :: rest => a ++ sep ++ joinWith sep rest

/-- Key set of `Object.fromEntries(list.map(k => [k, ...]))`: each key once,
in first-occurrence order. -/
def objectKeys (l : List String) : List String :=
  l.foldl (fun acc k => if acc.contains k then acc else acc ++ [k]) []

/-- Models JavaScript `String.prototype.trim` (whitespace stripped from both
ends), written by structural recursion on the character list. -/
def jsTrim (s : String) : String :=
  ⟨((s.data.dropWhile Char.isWhitespace).reverse.dropWhile Char.isWhitespace).reverse⟩

/-- Models JavaScript `String.prototype.toLowerCase` on ASCII names. -/
def jsToLower (s : String) : String :=
  ⟨s.data.map Char.toLower⟩

/-- Models JavaScript `String.prototype.toUpperCase` on ASCII names. -/
def jsToUpper (s : String) : String :=
  ⟨s.data.map Char.toUpper⟩

/-- Character-list splitting on a separator character. -/
def splitCharsOn (sep : Char) : List Char → List (List Char)
  | [] => [[]]
  | c :: rest =>
    match splitCharsOn sep rest with
    | [] => [[c]]
    | g :: gs => if c == sep then [] :: g :: gs else (c :: g) :: gs

/-- Models JavaScript `s.split(' ')` (single-character separator). -/
def jsSplit (s : String) (sep : Char) : List String :=
  (splitCharsOn sep s.data).map (fun l => ⟨l⟩)

mutual
/-- JSON-like JavaScript values exchanged with student code (probe results,
expected values, parsed response bodies).  `num` is restricted to integers,
which is all the grader's test data needs. -/
inductive JsValue : Type where
  | null : JsValue
  | bool : Bool → JsValue
  | num : Int → JsValue
  | str : String → JsValue
  | arr : JsArr → JsValue
  | obj : JsObj → JsValue

/-- Array payload of a `JsValue`. -/
inductive JsArr : Type where
  | nil : JsArr
  | cons : JsValue → JsArr → JsArr

/-- Object payload of a `JsValue`: field list in insertion order. -/
inductive JsObj : Type where
  | nil : JsObj
  | cons : String → JsValue → JsObj → JsObj
end

mutual
/-- Structural deep equality on `JsValue`; models the narrow interface the
grader uses from Node's `assert.deepStrictEqual` (objects are compared by
their canonical field lists). -/
def deepEq : JsValue → JsValue → Bool
  | .null, .null => true
  | .bool a, .bool b => a == b
  | .num a, .num b => a == b
  | .str a, .str b => a == b
  | .arr a, .arr b => deepEqArr a b
  | .obj a, .obj b => deepEqObj a b
  | _, _ => false

/-- Deep equality on array payloads. -/
def deepEqArr : JsArr → JsArr → Bool
  | .nil, .nil => true
  | .cons v vs, .cons w ws => deepEq v w && deepEqArr vs ws
  | _, _ => false

/-- Deep equality on object payloads. -/
def deepEqObj : JsObj → JsObj → Bool
  | .nil, .nil => true
  | .cons k v tl, .cons k2 v2 tl2 => k == k2 && deepEq v v2 && deepEqObj tl tl2
  | _, _ => false
end

mutual
/-- Rendering of a `JsValue`; models the grader's `stringify`/`pretty`
helpers (built on `JSON.stringify`) up to whitespace and string escaping. -/
def stringify : JsValue → String
  | .null => "null"
  | .bool b => cond b "true" "false"
  | .num n => toString n
  | .str s => "\"" ++ s ++ "\""
  | .arr a => "[" ++ stringifyArr a ++ "]"
  | .obj o => "\x7b" ++ stringifyObj o ++ "\x7d"

/-- Rendering of array elements, comma separated. -/
def stringifyArr : JsArr → String
  | .nil => ""
  | .cons v .nil => stringify v
  | .cons v tl => stringify v ++ "," ++ stringifyArr tl

/-- Rendering of object fields, comma separated. -/
def stringifyObj : JsObj → String
  | .nil => ""
  | .cons k v .nil => "\"" ++ k ++ "\":" ++ stringify v
  | .cons k v tl => "\"" ++ k ++ "\":" ++ stringify v ++ "," ++ stringifyObj tl
end

/-- Field lookup on an object payload (JavaScript property access; absent
fields read as `undefined`, modelled by `none`). -/
def lookupObj (key : String) : JsObj → Option JsValue
  | .nil => none
  | .cons k v tl => if k == key then some v else lookupObj key tl

/-- Models `res._id` on an arbitrary value: only objects carry fields. -/
def getField (v : JsValue) (key : String) : Option JsValue :=
  match v with
  | .obj o => lookupObj key o
  | _ => none

/-- Removal of a field from an object payload (JavaScript `delete`). -/
def deleteObj (key : String) : JsObj → JsObj
  | .nil => .nil
  | .cons k v tl => if k == key then deleteObj key tl else .cons k v (deleteObj key tl)

/-- Models `delete res._id` followed by using `res`. -/
def deleteField (v : JsValue) (key : String) : JsValue :=
  match v with
  | .obj o => .obj (deleteObj key o)
  | _ => v

/-- Whether a value is truthy and of JavaScript `typeof ... === 'object'`
(objects and arrays; `null` is excluded by the truthiness guard). -/
def isObjectLike (v : JsValue) : Bool :=
  match v with
  | .obj _ => true
  | .arr _ => true
  | _ => false

/-- Membership of a character in the regex class `[a-f0-9]`. -/
def isLowerHex (c : Char) : Bool :=
  ('a' ≤ c && c ≤ 'f') || ('0' ≤ c && c ≤ '9')

/-- Models the unanchored regex test `/[a-f0-9]{24}/.test(s)`: some window of
24 consecutive characters consists of `[a-f0-9]` characters only. -/
def hasHex24 : List Char → Bool
  | [] => false
  | c :: tl =>
    (((c :: tl).take 24).length == 24 && ((c :: tl).take 24).all isLowerHex)
      || hasHex24 tl

/-- Values thrown by student code: either a bare string or an `Error`-like
object with a constructor name, a `message`, and the list of class names it
is an `instanceof` of. -/
inductive Thrown : Type where
  | str : String → Thrown
  | err : (name : String) → (message : String) → (classes : List String) → Thrown

/-- Models `e.toString()` on a thrown value. -/
def thrownToString : Thrown → String
  | .str s => s
  | .err n m _ => n ++ ": " ++ m

/-- Models `typeof e === 'string' ? e : e.message`. -/
def thrownMessage : Thrown → String
  | .str s => s
  | .err _ m _ => m

/-- Models `e instanceof expectedType` for an expected class name. -/
def thrownInstanceOf (t : Thrown) (cls : String) : Bool :=
  match t with
  | .str _ => false
  | .err _ _ classes => classes.contains cls

/-- Models `e.name || (typeof e)` in the type-mismatch detail text. -/
def thrownName : Thrown → String
  | .str _ => "string"
  | .err n _ _ => if n == "" then "object" else n

/-- Errors raised inside the grading lifecycle.  `fatal` models
`FatalGraderError` from `Utils.js` (checked with `instanceof` by the batch
loop); `err` models every other thrown value, carrying its message. -/
inductive GraderError : Type where
  | fatal : String → GraderError
  | err : String → GraderError
deriving DecidableEq, Repr

/-- Parsed `package.json` manifest contents used by `checks()`:
`scriptsStart` is `scripts && scripts.start` (absent scripts collapse to
`none`), `hasDependencies` is the truthiness of `dependencies`. -/
structure Manifest : Type where
  type : Option String := none
  author : Option String := none
  scriptsStart : Option String := none
  hasDependencies : Bool := false
deriving DecidableEq, Repr

/-- One entry of the recursive directory listing consumed by `checks()`.
`json` is the result of `importJSON('package.json')` and is consulted only
when the entry is named `package.json` (case-insensitively): `Except.error`
models the malformed-JSON (or file-system) throw. -/
structure Entry : Type where
  name : String
  isDir : Bool := false
  path : String := "current_submission"
  json : Except String Manifest := .error "Malformed JSON syntax in \x27package.json\x27"
deriving Repr

/-- Assignment configuration (constructor argument of `Grader`).
`checkPackage` is an `Option` because the source reads it with `?? true`;
`startScript` and `connectionString` are read with `||` against built-in
defaults. -/
structure Config : Type where
  requiredFiles : List String := []
  requiredCollections : List String := []
  startScript : Option String := none
  runStartScript : Bool := false
  checkPackage : Option Bool := none
  hasDatabase : Bool := false
  connectionString : Option String := none
deriving Repr

/-- The mutable per-submission grader state: the fields assigned by the
`Grader` constructor.  `subprocess` models handle non-nullness, `db` models
the database handle; the numeric `uid` and the driver handles carry no
grading-relevant state and are omitted. -/
structure GraderState : Type where
  requiredFiles : List String
  requiredCollections : List String
  defaultStartScript : String
  runStartScript : Bool
  checkPackage : Bool
  hasDatabase : Bool
  connectionString : String
  packageJson : Option Manifest
  hadModules : Bool
  directory : String
  author : String
  module : Bool
  startScript : Option String
  subprocess : Bool
  subprocessClosed : Bool
  db : Bool
  score : Int
  comments : List String
deriving DecidableEq, Repr

/-- The `Grader` constructor: initial state for a submission. -/
def initGrader (cfg : Config) : GraderState :=
  { requiredFiles := cfg.requiredFiles
    requiredCollections := cfg.requiredCollections
    defaultStartScript := jsOrStr cfg.startScript "node app.js"
    runStartScript := cfg.runStartScript
    checkPackage := cfg.checkPackage.getD true
    hasDatabase := cfg.hasDatabase
    connectionString := jsOrStr cfg.connectionString "mongodb://localhost:27017/"
    packageJson := none
    hadModules := false
    directory := "current_submission"
    author := ""
    module := true
    startScript := none
    subprocess := false
    subprocessClosed := true
    db := false
    score := 100
    comments := [] }

/-- The comment entry appended by `deductPoints`: the thrown-in detail is
appended after a newline only when truthy (non-empty). -/
def deductComment (points : Int) (reason : String) (error : Option String) : String :=
  "-" ++ toString points ++ "; " ++ reason ++
    (match error with
     | some e => if e == "" then "" else "\n" ++ e
     | none => "")

/-- `Grader.deductPoints`: subtract from the score, clamp at zero, append
one formatted comment.  Total — the method has no throwing operation. -/
def deductPoints (st : GraderState) (points : Int) (reason : String)
    (error : Option String) : GraderState :=
  let s := st.score - points
  { st with
    score := if s < 0 then 0 else s
    comments := st.comments ++ [deductComment points reason error] }

/-- `Grader.assertDeepEquals`: run the probe (its outcome is the supplied
`Except`: `.error` = it threw, `.ok` = its result); a throw deducts the full
points with the error text, a deep-equality mismatch deducts the full points
with both rendered values, a match leaves the ledger untouched. -/
def assertDeepEquals (st : GraderState) (points : Int) (message : String)
    (probe : Except Thrown JsValue) (expectedValue : JsValue) : GraderState :=
  match probe with
  | .error e =>
    deductPoints st points (message ++ "; Error thrown on valid input.")
      (some (thrownToString e))
  | .ok actual =>
    if deepEq actual expectedValue then st
    else
      deductPoints st points (message ++ "; Unexpected results.")
        (some ("Received: " ++ stringify actual ++ "\nExpected: "
          ++ stringify expectedValue))

/-- Detail text of the options-mismatch deduction in
`assertDeepEqualsOptions`. -/
def optionsDetail (actual : JsValue) (expectedValues : List JsValue) : String :=
  "Received: " ++ stringify actual ++ "\nExpected one of the following:\n- "
    ++ joinWith "\n- " (expectedValues.map stringify)

/-- The `for ... of expectedValues` loop of `assertDeepEqualsOptions`:
return on the first deep-equal option, deduct after exhausting the list. -/
def optionsLoop (st : GraderState) (points : Int) (message : String)
    (actual : JsValue) (expectedValues : List JsValue) : List JsValue → GraderState
  | [] =>
    deductPoints st points (message ++ "; Unexpected results.")
      (some (optionsDetail actual expectedValues))
  | v :: rest =>
    if deepEq actual v then st
    else optionsLoop st points message actual expectedValues rest

/-- `Grader.assertDeepEqualsOptions`: probe failure deducts the full points;
otherwise the result is accepted iff it deep-equals some element of
`expectedValues`, and a mismatch deducts the full points listing every
acceptable option in the detail. -/
def assertDeepEqualsOptions (st : GraderState) (points : Int) (message : String)
    (probe : Except Thrown JsValue) (expectedValues : List JsValue) : GraderState :=
  match probe with
  | .error e =>
    deductPoints st points (message ++ "; Error thrown on valid input.")
      (some (thrownToString e))
  | .ok actual => optionsLoop st points message actual expectedValues expectedValues

/-- `Grader.assertThrows`.  `expectedMessage`/`expectedType` are the optional
arguments (`none` = `undefined`); `messagePoints`/`typePoints` are `some`
exactly when a number was passed.  A missing point split for a supplied
expectation is the `TypeError` configuration error (the `Except.error`
result).  Otherwise: a probe that returns deducts the full points; a throw
with no expectations deducts nothing; a mismatched (trimmed) message deducts
`messagePoints`; a mismatched type deducts `typePoints`, first diminished by
`points - deducted` when `typePoints + deducted > points` — exactly the
source's `typePoints -= points - deducted`. -/
def assertThrows (st : GraderState) (points : Int) (message : String)
    (probe : Except Thrown JsValue) (expectedMessage : Option String)
    (messagePoints : Option Int) (expectedType : Option String)
    (typePoints : Option Int) : Except GraderError GraderState :=
  if jsTruthyStr expectedMessage && messagePoints.isNone then
    .error (.err "If expectedMessage is provided, messagePoints must be provided as well.")
  else if expectedType.isSome && typePoints.isNone then
    .error (.err "If expectedType is provided, typePoints must be provided as well.")
  else
    .ok (match probe with
      | .ok result =>
        deductPoints st points
          (message ++ "; Expected an error to be thrown, got a result instead.")
          (some (stringify result))
      | .error e =>
        if !jsTruthyStr expectedMessage && !expectedType.isSome then st
        else
          let messageMismatch := jsTruthyStr expectedMessage
            && !(jsTrim (thrownMessage e) == jsTrim (expectedMessage.getD ""))
          let st1 := if messageMismatch then
              deductPoints st (messagePoints.getD 0)
                (message ++ "; Encountered unexpected error message.")
                (some ("- Expected: " ++ expectedMessage.getD ""
                  ++ "\n- Received: " ++ thrownMessage e))
            else st
          let deducted : Int := if messageMismatch then messagePoints.getD 0 else 0
          match expectedType with
          | some cls =>
            if !thrownInstanceOf e cls then
              let tp0 := typePoints.getD 0
              let tp := if tp0 + deducted > points then tp0 - (points - deducted) else tp0
              deductPoints st1 tp
                (message ++ "; Encountered unexpected error type.")
                (some ("- Expected: " ++ (if cls == "" then "function" else cls)
                  ++ "\n- Received: " ++ thrownName e))
            else st1
          | none => st1)

/-- `Grader.assertWithoutId`: wraps the probe so that, for object-like
results, the `_id` field is captured, validated (string, length 24, regex
`/[a-f0-9]{24}/`) and removed before delegating to `assertDeepEquals`; an
invalid `_id` makes the wrapped probe throw the string
`Invalid value provided for '_id'.`.  Returns the updated ledger and the
captured `_id` (the source returns the captured variable even when
validation failed after capturing). -/
def assertWithoutId (st : GraderState) (points : Int) (message : String)
    (probe : Except Thrown JsValue) (expectedValue : JsValue) :
    GraderState × Option JsValue :=
  match probe with
  | .error e => (assertDeepEquals st points message (.error e) expectedValue, none)
  | .ok res =>
    if isObjectLike res then
      match getField res "_id" with
      | some (.str s) =>
        if s.length == 24 && hasHex24 s.toList then
          (assertDeepEquals st points message (.ok (deleteField res "_id")) expectedValue,
            some (.str s))
        else
          (assertDeepEquals st points message
            (.error (.str "Invalid value provided for \x27_id\x27.")) expectedValue,
            some (.str s))
      | other =>
        (assertDeepEquals st points message
          (.error (.str "Invalid value provided for \x27_id\x27.")) expectedValue,
          other)
    else (assertDeepEquals st points message (.ok res) expectedValue, none)

/-- `Grader.assertRequestDeepEqualsWithoutId`.  The HTTP exchange is an
external call; its observed outcome is passed in as the response `status`
and body `text` together with `parsed`, the result of `JSON.parse(text)`
(`none` = the parse threw).  A non-200 status or an unparsable body deducts
the full points; otherwise the parsed body is delegated to
`assertWithoutId`, whose captured `_id` is returned. -/
def assertRequestDeepEqualsWithoutId (st : GraderState) (points : Int)
    (url : String) (method : String) (status : Int) (text : String)
    (parsed : Option JsValue) (expectedValue : JsValue) :
    GraderState × Option JsValue :=
  let testCaseText := jsToUpper method ++ " " ++ url
  if !(status == 200) then
    (deductPoints st points testCaseText
      (some "Route did not return an OK (200) status code."), none)
  else
    match parsed with
    | none =>
      (deductPoints st points testCaseText
        (some ("Invalid response body:\n" ++ text)), none)
    | some actual => assertWithoutId st points testCaseText (.ok actual) expectedValue

/-- A submission as the lifecycle observes it: the recursive directory
listing of the extracted tree, plus the outcomes of the external calls the
lifecycle makes for it.  `collectionsFile` is the collection-name list the
`getCollectionFn` scan of `config/mongoCollections.js` yields (`none` = the
read threw); `npmError` is a thrown `npm i` failure; `dbSetupError` a
failure of `setupDatabase`'s import/write/connect sequence; `procExited`
whether the spawned process closed on its own; `killOk` the return value of
`subprocess.kill()`. -/
structure Submission : Type where
  entries : List Entry
  collectionsFile : Option (List String) := some []
  npmError : Option String := none
  dbSetupError : Option String := none
  procExited : Bool := false
  killOk : Bool := true

/-- The `for (const entry of entries)` scan of `Grader.checks()`: flags
`node_modules` once (5-point deduction), skips vendored contents, records
the manifest of any `package.json` (propagating an `importJSON` throw) while
re-rooting the working directory, and marks required files as found. -/
def checksLoop (st : GraderState) (found : List String) :
    List Entry → (GraderState × List String) × Option GraderError
  | [] => ((st, found), none)
  | e :: rest =>
    if !st.hadModules && e.isDir && e.name == "node_modules" then
      checksLoop
        (deductPoints { st with hadModules := true } 5
          "Included node_modules in submission." none) found rest
    else if st.hadModules && strIncludes e.path "node_modules" then
      checksLoop st found rest
    else if jsToLower e.name == "package.json" then
      match e.json with
      | .error m => (({ st with directory := e.path }, found), some (.err m))
      | .ok mf =>
        checksLoop { st with directory := e.path, packageJson := some mf } found rest
    else if st.requiredFiles.contains e.name then
      let st' := if st.packageJson.isNone then { st with directory := e.path } else st
      checksLoop st' (e.name :: found) rest
    else checksLoop st found rest

/-- The `if (this.checkPackage)` block of `checks()`: a missing manifest or
missing start script costs 5 points and falls back to the default start
command; otherwise module-type, author and the declared start command are
recorded. -/
def checkPackageStep (st : GraderState) : GraderState :=
  if st.checkPackage then
    match st.packageJson with
    | none =>
      let st1 := deductPoints st 5 "Missing package.json file." none
      { st1 with startScript := some st1.defaultStartScript }
    | some mf =>
      let st1 := if !jsTruthyStr mf.type || !(mf.type == some "module") then
          { st with module := false }
        else st
      let st2 := if jsTruthyStr mf.author then
          { st1 with author := mf.author.getD "" }
        else st1
      if !jsTruthyStr mf.scriptsStart then
        let st3 := deductPoints st2 5 "Missing start script in package.json file." none
        { st3 with startScript := some st3.defaultStartScript }
      else { st2 with startScript := mf.scriptsStart }
  else st

/-- The required-collections verification of `checks()`: compares the
collection names registered in `config/mongoCollections.js` (the scan
outcome is `sub.collectionsFile`) against `requiredCollections`. -/
def collectionsStep (st : GraderState) (sub : Submission) : Option GraderError :=
  if st.hasDatabase && !st.requiredCollections.isEmpty then
    match sub.collectionsFile with
    | none => some (.err "Couldn\x27t read collections configuration.")
    | some foundCollections =>
      let missingCollections :=
        joinWith ", " (st.requiredCollections.filter (fun c => !foundCollections.contains c))
      let extraCollections :=
        joinWith ", " (foundCollections.filter (fun c => !st.requiredCollections.contains c))
      if !(missingCollections == "") || !(extraCollections == "") then
        some (.err ("Collections error: unexpected and/or missing collections.\n- Missing collections: "
          ++ (if missingCollections == "" then "None" else missingCollections)
          ++ "\n- Extra/unexpected collections: "
          ++ (if extraCollections == "" then "None" else extraCollections)))
      else none
  else none

/-- The trailing `npm i` of `checks()`: executed (and able to throw) only
when a manifest with truthy `dependencies` was found. -/
def npmStep (st : GraderState) (sub : Submission) : Option GraderError :=
  match st.packageJson with
  | some mf => if mf.hasDependencies then sub.npmError.map .err else none
  | none => none

/-- `Grader.checks()`: the directory scan, the manifest checks, the
missing-required-files throw (listing every missing name), the collections
verification and the dependency install, in source order.  The result pairs
the grader state as mutated so far with the raised error, if any
(`path.resolve` and `process.chdir` mutate no grader field and are
omitted). -/
def checksModel (cfg : Config) (sub : Submission) : GraderState × Option GraderError :=
  match checksLoop (initGrader cfg) [] sub.entries with
  | ((st, _), some e) => (st, some e)
  | ((st0, found), none) =>
    let st := checkPackageStep st0
    let missingFiles :=
      joinWith ", " ((objectKeys st.requiredFiles).filter (fun f => !found.contains f))
    if !(missingFiles == "") then
      (st, some (.err ("Missing file(s): " ++ missingFiles)))
    else
      match collectionsStep st sub with
      | some e => (st, some e)
      | none =>
        match npmStep st sub with
        | some e => (st, some e)
        | none => (st, none)

/-- `Grader.setupDatabase()`: rewrites the submission's connection settings
and opens a client; the import/write/connect sequence is external and its
outcome is `sub.dbSetupError`.  On success the grader holds a database
handle; no other grader field is touched. -/
def setupDatabaseModel (sub : Submission) (st : GraderState) :
    GraderState × Option GraderError :=
  match sub.dbSetupError with
  | some m => (st, some (.err m))
  | none => ({ st with db := true }, none)

/-- The `TypeError` raised by `null.split(' ')` when `start()` runs with the
never-assigned `startScript`. -/
def nullSplitTypeError : GraderError :=
  .err "TypeError: Cannot read properties of null (reading \x27split\x27)"

/-- `Grader.start()`: splits the start command (throwing the `TypeError`
when it is still `null`), allow-lists the `node` interpreter, then spawns
the subprocess and races readiness against a timeout — the race only delays
resolution, so the state outcome is an open subprocess whose `close` event
sets `subprocessClosed` (`sub.procExited`). -/
def startModel (sub : Submission) (st : GraderState) :
    GraderState × Option GraderError :=
  match st.startScript with
  | none => (st, some nullSplitTypeError)
  | some script =>
    let cmd := jsSplit script ' '
    let c0 := cmd.headD ""
    if c0 == "" || !(c0 == "node") then
      (st, some (.err ("Possibly unsafe start script encountered: " ++ script)))
    else
      ({ st with subprocess := true, subprocessClosed := sub.procExited }, none)

/-- `Grader.cleanup()`: tears down any opened database handle, then — if the
subprocess handle exists and the process has not closed — calls `kill()` and
raises `FatalGraderError` when the call reports failure; the conditional
`node_modules` removal touches only the file system. -/
def cleanupModel (sub : Submission) (st : GraderState) :
    GraderState × Option GraderError :=
  let st1 := if st.hasDatabase && st.db then { st with db := false } else st
  if st1.subprocess && !st1.subprocessClosed then
    if !sub.killOk then
      (st1, some (.fatal "Failed to kill student submission process."))
    else (st1, none)
  else (st1, none)

/-- Sequencing of lifecycle phases: a raised error short-circuits the rest,
with the grader state as mutated so far. -/
def bindStep (r : GraderState × Option GraderError)
    (f : GraderState → GraderState × Option GraderError) :
    GraderState × Option GraderError :=
  match r with
  | (st, some e) => (st, some e)
  | (st, none) => f st

/-- The assignment-specific `testCases()` hook: an arbitrary state
transformer that may raise. -/
def TestCases : Type := GraderState → GraderState × Option GraderError

/-- `Grader.run()`: checks, then (optionally) database setup, then
(optionally) process start, then the test cases, then cleanup.  On a fully
successful pass the returned state carries the grade and comments that
`run()` packages up. -/
def runModel (cfg : Config) (sub : Submission) (tc : TestCases) :
    GraderState × Option GraderError :=
  bindStep (checksModel cfg sub) fun st =>
  bindStep (if st.hasDatabase then setupDatabaseModel sub st else (st, none)) fun st =>
  bindStep (if st.runStartScript then startModel sub st else (st, none)) fun st =>
  bindStep (tc st) fun st =>
  cleanupModel sub st

/-- Per-archive outcome the batch loop records: a grade, or a failed
grading attempt. -/
inductive BatchOutcome : Type where
  | graded : Int → BatchOutcome
  | failed : BatchOutcome
deriving DecidableEq, Repr

/-- The `for (const sub of subs)` loop of `autoGrade`: one lifecycle per
archive; on an error the lifecycle's cleanup is re-run defensively — if that
defensive cleanup itself raises, the exception propagates and ends the
whole run; a `FatalGraderError` breaks out of the loop; any other error
logs and continues with the next archive.  The result lists one outcome per
archive actually processed. -/
def autoGradeLoop (cfg : Config) (tc : TestCases) : List Submission → List BatchOutcome
  | [] => []
  | sub :: rest =>
    match runModel cfg sub tc with
    | (st, none) => .graded st.score :: autoGradeLoop cfg tc rest
    | (st, some e) =>
      match cleanupModel sub st with
      | (_, some _) => [.failed]
      | (_, none) =>
        match e with
        | .fatal _ => [.failed]
        | .err _ => .failed :: autoGradeLoop cfg tc rest

/-- Score equation of `deductPoints`: subtract, then clamp at zero. -/
theorem deductPoints_score (st : GraderState) (points : Int) (reason : String)
    (error : Option String) :
    (deductPoints st points reason error).score
      = if st.score - points < 0 then 0 else st.score - points := rfl

/-- Comment equation of `deductPoints`: exactly one formatted entry is
appended. -/
theorem deductPoints_comments (st : GraderState) (points : Int) (reason : String)
    (error : Option String) :
    (deductPoints st points reason error).comments
      = st.comments ++ [deductComment points reason error] := rfl

/-- A sequence of `deductPoints` calls applied in order:
each call is (points, reason, optional detail). -/
def applyDeductions (st : GraderState)
    (calls : List (Int × String × Option String)) : GraderState :=
  calls.foldl (fun s c => deductPoints s c.1 c.2.1 c.2.2) st

/-- Folding `deductPoints` over nonnegative point values from any state with
a nonnegative score clamps exactly once: the result is
`max 0 (score - sum)`, and the comment log grows by one formatted entry per
call, in order. -/
theorem applyDeductions_spec (calls : List (Int × String × Option String)) :
    ∀ st : GraderState, (∀ c ∈ calls, 0 ≤ c.1) → 0 ≤ st.score →
      (applyDeductions st calls).score
          = max 0 (st.score - (calls.map (fun c => c.1)).sum)
        ∧ (applyDeductions st calls).comments
          = st.comments ++ calls.map (fun c => deductComment c.1 c.2.1 c.2.2) := by
  induction calls with
  | nil =>
    intro st _ h0
    constructor
    · simp [applyDeductions]
      omega
    · simp [applyDeductions]
  | cons c rest ih =>
    intro st h h0
    have hc : 0 ≤ c.1 := h c (by simp)
    have hrest : ∀ x ∈ rest, 0 ≤ x.1 := fun x hx => h x (by simp [hx])
    have hstep : applyDeductions st (c :: rest)
        = applyDeductions (deductPoints st c.1 c.2.1 c.2.2) rest := rfl
    have h0' : 0 ≤ (deductPoints st c.1 c.2.1 c.2.2).score := by
      rw [deductPoints_score]
      split <;> omega
    obtain ⟨hs, hcm⟩ := ih (deductPoints st c.1 c.2.1 c.2.2) hrest h0'
    have hsum : 0 ≤ ((rest.map fun c => c.1).sum) :=
      List.sum_nonneg fun x hx => by
        obtain ⟨c', hc', rfl⟩ := List.mem_map.mp hx
        exact hrest c' hc'
    constructor
    · rw [hstep, hs, deductPoints_score]
      simp only [List.map_cons, List.sum_cons]
      split <;> omega
    · rw [hstep, hcm, deductPoints_comments]
      simp [List.append_assoc]

/-- C2: for every sequence of `deductPoints` calls with nonnegative point
values on a freshly constructed grader, the final score is
`max 0 (100 - sum of points)` and the comments are exactly one entry per
call, in call order, each formatted by `deductComment`
(`-<points>; <reason>` with the detail after a newline when present). -/
theorem deduct_sequence_score_comments (cfg : Config)
    (calls : List (Int × String × Option String))
    (h : ∀ c ∈ calls, 0 ≤ c.1) :
    (applyDeductions (initGrader cfg) calls).score
        = max 0 (100 - (calls.map (fun c => c.1)).sum)
      ∧ (applyDeductions (initGrader cfg) calls).comments
        = calls.map (fun c => deductComment c.1 c.2.1 c.2.2)
      ∧ (applyDeductions (initGrader cfg) calls).comments.length = calls.length := by
  obtain ⟨hs, hc⟩ := applyDeductions_spec calls (initGrader cfg) h (by simp [initGrader])
  have h100 : (initGrader cfg).score = 100 := rfl
  have hnil : (initGrader cfg).comments = [] := rfl
  rw [h100] at hs
  rw [hnil, List.nil_append] at hc
  exact ⟨hs, hc, by rw [hc]; simp⟩

/-- Concrete deduction sequence for the witness below. -/
def callsW : List (Int × String × Option String) :=
  [(60, "alpha", none), (70, "beta", some "detail")]

/-- Witness for C2 at a concrete call sequence that overshoots the score. -/
theorem deduct_sequence_score_comments_witness :
    (∀ c ∈ callsW, 0 ≤ c.1)
      ∧ (applyDeductions (initGrader {}) callsW).score
          = max 0 (100 - (callsW.map (fun c => c.1)).sum) :=
  ⟨by decide, (deduct_sequence_score_comments {} callsW (by decide)).1⟩

/-- C5: `deductPoints` is total (it is a plain function into `GraderState`,
with no error outcome) and its only effects are the clamped score update and
the appending of exactly one formatted comment: every other grader field is
unchanged, for every points value, reason, optional detail and state. -/
theorem deductPoints_always_succeeds (st : GraderState) (points : Int)
    (reason : String) (error : Option String) :
    (deductPoints st points reason error).score
        = (if st.score - points < 0 then 0 else st.score - points)
      ∧ (deductPoints st points reason error).comments
        = st.comments ++ [deductComment points reason error]
      ∧ (deductPoints st points reason error).requiredFiles = st.requiredFiles
      ∧ (deductPoints st points reason error).requiredCollections = st.requiredCollections
      ∧ (deductPoints st points reason error).defaultStartScript = st.defaultStartScript
      ∧ (deductPoints st points reason error).runStartScript = st.runStartScript
      ∧ (deductPoints st points reason error).checkPackage = st.checkPackage
      ∧ (deductPoints st points reason error).hasDatabase = st.hasDatabase
      ∧ (deductPoints st points reason error).connectionString = st.connectionString
      ∧ (deductPoints st points reason error).packageJson = st.packageJson
      ∧ (deductPoints st points reason error).hadModules = st.hadModules
      ∧ (deductPoints st points reason error).directory = st.directory
      ∧ (deductPoints st points reason error).author = st.author
      ∧ (deductPoints st points reason error).module = st.module
      ∧ (deductPoints st points reason error).startScript = st.startScript
      ∧ (deductPoints st points reason error).subprocess = st.subprocess
      ∧ (deductPoints st points reason error).subprocessClosed = st.subprocessClosed
      ∧ (deductPoints st points reason error).db = st.db :=
  ⟨rfl, rfl, rfl, rfl, rfl, rfl, rfl, rfl, rfl, rfl, rfl, rfl, rfl, rfl, rfl, rfl,
    rfl, rfl⟩

/-- C1: at `points = 10`, `messagePoints = 9`, `typePoints = 9`, with a
raised error mismatching both the expected message and the expected type,
`assertThrows` records a 9-point and then an 8-point deduction — 17 points
in total, exceeding the test case's 10 points.  The source's cap
(`typePoints -= points - deducted`) subtracts `points - deducted` instead of
assigning it, contradicting the comment above it («Prevent cumulative
deductions from going above the total test case points»). -/
theorem assertThrows_cap_violation :
    assertThrows (initGrader {}) 10 "m" (.error (.err "Error" "wrong" []))
        (some "right") (some 9) (some "RangeError") (some 9)
      = .ok { initGrader {} with
          score := 83,
          comments :=
            ["-9; m; Encountered unexpected error message.\n- Expected: right\n- Received: wrong",
             "-8; m; Encountered unexpected error type.\n- Expected: RangeError\n- Received: Error"] }
      ∧ (100 : Int) - 83 > 10 := by
  constructor
  · rfl
  · decide

/-- C9: an empty `expectedMessage` is falsy, so `assertThrows` treats it
exactly as an absent one: the call behaves identically to passing no
expected message at all; in particular it does not require `messagePoints`
(no `TypeError`), and with no expected type it deducts nothing on a throw,
whatever message the raised error carries. -/
theorem assertThrows_empty_message_as_absent :
    (∀ (st : GraderState) (points : Int) (message : String)
        (probe : Except Thrown JsValue) (messagePoints : Option Int)
        (expectedType : Option String) (typePoints : Option Int),
      assertThrows st points message probe (some "") messagePoints expectedType typePoints
        = assertThrows st points message probe none messagePoints expectedType typePoints)
    ∧ (∀ (st : GraderState) (points : Int) (message : String)
        (probe : Except Thrown JsValue) (typePoints : Option Int),
      ∃ st', assertThrows st points message probe (some "") none none typePoints
        = .ok st')
    ∧ (∀ (st : GraderState) (points : Int) (message : String) (e : Thrown)
        (typePoints : Option Int),
      assertThrows st points message (.error e) (some "") none none typePoints
        = .ok st) := by
  refine ⟨?_, ?_, ?_⟩
  · intro st points message probe messagePoints expectedType typePoints
    cases probe <;> simp [assertThrows, jsTruthyStr]
  · intro st points message probe typePoints
    cases probe with
    | ok r => exact ⟨_, rfl⟩
    | error e => exact ⟨st, rfl⟩
  · intro st points message e typePoints
    rfl

/-- A `deductPoints` call never returns the state unchanged: it always
appends a comment. -/
theorem deductPoints_ne (st : GraderState) (points : Int) (reason : String)
    (error : Option String) : deductPoints st points reason error ≠ st := by
  intro h
  have h2 := congrArg (fun s => s.comments.length) h
  simp only [deductPoints_comments, List.length_append, List.length_cons,
    List.length_nil] at h2
  omega

/-- The options loop leaves the state unchanged exactly when some option in
the remaining list deep-equals the actual value. -/
theorem optionsLoop_eq_self_iff (st : GraderState) (points : Int)
    (message : String) (actual : JsValue) (expectedValues : List JsValue) :
    ∀ l : List JsValue,
      optionsLoop st points message actual expectedValues l = st
        ↔ l.any (fun v => deepEq actual v) = true := by
  intro l
  induction l with
  | nil =>
    simp only [optionsLoop, List.any_nil]
    exact ⟨fun h => absurd h (deductPoints_ne st points _ _), fun h => by simp at h⟩
  | cons v tl ih =>
    simp only [optionsLoop, List.any_cons]
    by_cases hd : deepEq actual v
    · simp [hd]
    · simp only [Bool.not_eq_true] at hd
      simp [hd, ih]

/-- When no option in the remaining list matches, the options loop deducts
the full points with the detail listing every acceptable option. -/
theorem optionsLoop_miss (st : GraderState) (points : Int) (message : String)
    (actual : JsValue) (expectedValues : List JsValue) :
    ∀ l : List JsValue, l.any (fun v => deepEq actual v) = false →
      optionsLoop st points message actual expectedValues l
        = deductPoints st points (message ++ "; Unexpected results.")
            (some (optionsDetail actual expectedValues)) := by
  intro l
  induction l with
  | nil => intro _; rfl
  | cons v tl ih =>
    intro h
    simp only [List.any_cons, Bool.or_eq_false_iff] at h
    simp only [optionsLoop, h.1, Bool.false_eq_true, if_false]
    exact ih h.2

/-- C7: `assertDeepEqualsOptions` records no deduction iff the probe
returned a value deep-equal to at least one expected option; a probe throw
deducts the full points with the error text, and a result matching no
option deducts the full points with a detail listing every acceptable
option. -/
theorem assertDeepEqualsOptions_spec (st : GraderState) (points : Int)
    (message : String) (probe : Except Thrown JsValue)
    (expectedValues : List JsValue) :
    (assertDeepEqualsOptions st points message probe expectedValues = st
        ↔ ∃ a, probe = .ok a ∧ expectedValues.any (fun v => deepEq a v) = true)
    ∧ (∀ e, probe = .error e →
        assertDeepEqualsOptions st points message probe expectedValues
          = deductPoints st points (message ++ "; Error thrown on valid input.")
              (some (thrownToString e)))
    ∧ (∀ a, probe = .ok a →
        expectedValues.any (fun v => deepEq a v) = false →
        assertDeepEqualsOptions st points message probe expectedValues
          = deductPoints st points (message ++ "; Unexpected results.")
              (some (optionsDetail a expectedValues))) := by
  refine ⟨?_, ?_, ?_⟩
  · cases probe with
    | error e =>
      simp only [assertDeepEqualsOptions]
      constructor
      · intro h
        exact absurd h (deductPoints_ne st points _ _)
      · rintro ⟨a, ha, -⟩
        cases ha
    | ok a =>
      simp only [assertDeepEqualsOptions]
      rw [optionsLoop_eq_self_iff]
      constructor
      · intro h
        exact ⟨a, rfl, h⟩
      · rintro ⟨a', ha', h⟩
        cases ha'
        exact h
  · rintro e rfl
    rfl
  · rintro a rfl h
    simp only [assertDeepEqualsOptions]
    exact optionsLoop_miss st points message a expectedValues expectedValues h

/-- Object value used in the concrete option-assertion witness. -/
def vA1 : JsValue := .obj (.cons "a" (.num 1) .nil)

/-- Object value used in the concrete option-assertion witness. -/
def vA2 : JsValue := .obj (.cons "a" (.num 2) .nil)

/-- Object value used in the concrete option-assertion witness. -/
def vA3 : JsValue := .obj (.cons "a" (.num 3) .nil)

/-- Witness for C7 at the spec's own example: probe returning the object
with `a = 1` matches the option list containing it (no deduction) and
misses the list with `a = 2`/`a = 3` (full deduction, both options in the
detail). -/
theorem assertDeepEqualsOptions_spec_witness :
    assertDeepEqualsOptions (initGrader {}) 10 "t" (.ok vA1) [vA2, vA1]
        = initGrader {}
      ∧ assertDeepEqualsOptions (initGrader {}) 10 "t" (.ok vA1) [vA2, vA3]
        = deductPoints (initGrader {}) 10 "t; Unexpected results."
            (some (optionsDetail vA1 [vA2, vA3])) := by
  constructor
  · exact (assertDeepEqualsOptions_spec (initGrader {}) 10 "t" (.ok vA1)
      [vA2, vA1]).1.mpr ⟨vA1, rfl, by decide⟩
  · exact (assertDeepEqualsOptions_spec (initGrader {}) 10 "t" (.ok vA1)
      [vA2, vA3]).2.2 vA1 rfl (by decide)

/-- C3: a still-open subprocess whose `kill()` reports failure makes
`cleanup()` raise the fatal category (`FatalGraderError`), and the batch
loop then processes no further archives (whether the fatal error surfaces
through `run()` or through the defensive cleanup in the catch block); every
other per-submission error leads to defensive cleanup and the loop
continuing with the next archive. -/
theorem cleanup_fatal_halts_batch :
    (∀ (sub : Submission) (st : GraderState),
      st.subprocess = true → st.subprocessClosed = false → sub.killOk = false →
      (cleanupModel sub st).2
        = some (.fatal "Failed to kill student submission process."))
    ∧ (∀ (cfg : Config) (tc : TestCases) (sub : Submission)
        (rest : List Submission) (st : GraderState) (e : GraderError),
      runModel cfg sub tc = (st, some e) →
      (cleanupModel sub st).2.isSome = true →
      autoGradeLoop cfg tc (sub :: rest) = [.failed])
    ∧ (∀ (cfg : Config) (tc : TestCases) (sub : Submission)
        (rest : List Submission) (st : GraderState) (m : String),
      runModel cfg sub tc = (st, some (.err m)) →
      (cleanupModel sub st).2 = none →
      autoGradeLoop cfg tc (sub :: rest) = .failed :: autoGradeLoop cfg tc rest) := by
  refine ⟨?_, ?_, ?_⟩
  · intro sub st h1 h2 h3
    simp only [cleanupModel]
    split <;> simp [h1, h2, h3]
  · intro cfg tc sub rest st e hrun hsome
    rcases hcl : cleanupModel sub st with ⟨st2, r2⟩
    cases r2 with
    | none => rw [hcl] at hsome; simp at hsome
    | some e2 => simp [autoGradeLoop, hrun, hcl]
  · intro cfg tc sub rest st m hrun hnone
    rcases hcl : cleanupModel sub st with ⟨st2, r2⟩
    rw [hcl] at hnone
    simp only at hnone
    subst hnone
    simp [autoGradeLoop, hrun, hcl]

/-- Configuration used by the batch-halt witness: the start script runs. -/
def cfgC3 : Config := { runStartScript := true }

/-- A submission whose subprocess cannot be killed. -/
def subC3 : Submission := { entries := [], killOk := false }

/-- A benign submission (kill succeeds). -/
def subOk : Submission := { entries := [] }

/-- Test cases that raise a local (non-fatal) error. -/
def tcBoom : TestCases := fun s => (s, some (.err "boom"))

/-- A grader state with a live subprocess. -/
def stOpen : GraderState :=
  { initGrader cfgC3 with subprocess := true, subprocessClosed := false }

/-- Witness for C3: the unkillable-subprocess cleanup is fatal, the loop
stops after the offending archive, and a local error continues to the next
archive. -/
theorem cleanup_fatal_halts_batch_witness :
    (cleanupModel subC3 stOpen).2
        = some (.fatal "Failed to kill student submission process.")
      ∧ autoGradeLoop cfgC3 tcBoom [subC3, subOk] = [.failed]
      ∧ autoGradeLoop cfgC3 tcBoom [subOk, subOk]
        = .failed :: autoGradeLoop cfgC3 tcBoom [subOk] := by
  refine ⟨cleanup_fatal_halts_batch.1 subC3 stOpen rfl rfl rfl, ?_, ?_⟩
  · exact cleanup_fatal_halts_batch.2.1 cfgC3 tcBoom subC3 [subOk]
      (runModel cfgC3 subC3 tcBoom).1 (.err "boom") rfl rfl
  · exact cleanup_fatal_halts_batch.2.2 cfgC3 tcBoom subOk [subOk]
      (runModel cfgC3 subOk tcBoom).1 "boom" rfl rfl

/-- Membership in the key set built by `objectKeys` is membership in the
original list. -/
theorem mem_objectKeys_aux (a : String) :
    ∀ (l acc : List String),
      (a ∈ l.foldl (fun acc k => if acc.contains k then acc else acc ++ [k]) acc)
        ↔ (a ∈ acc ∨ a ∈ l) := by
  intro l
  induction l with
  | nil => intro acc; simp
  | cons k tl ih =>
    intro acc
    simp only [List.foldl_cons]
    by_cases hk : acc.contains k = true
    · rw [if_pos hk, ih]
      have hk' : k ∈ acc := by simpa using hk
      constructor
      · rintro (h | h)
        · exact Or.inl h
        · exact Or.inr (List.mem_cons_of_mem k h)
      · rintro (h | h)
        · exact Or.inl h
        · rcases List.mem_cons.mp h with rfl | h
          · exact Or.inl hk'
          · exact Or.inr h
    · rw [if_neg hk, ih]
      simp only [List.mem_append, List.mem_singleton, List.mem_cons]
      tauto

/-- Membership characterization of `objectKeys`. -/
theorem mem_objectKeys (a : String) (l : List String) :
    a ∈ objectKeys l ↔ a ∈ l := by
  unfold objectKeys
  rw [mem_objectKeys_aux]
  simp

/-- Every member of a list is no longer than the list's join. -/
theorem le_length_joinWith (sep : String) (f : String) :
    ∀ l : List String, f ∈ l → f.length ≤ (joinWith sep l).length := by
  intro l
  induction l with
  | nil => intro h; cases h
  | cons a tl ih =>
    intro hf
    cases tl with
    | nil =>
      rcases List.mem_cons.mp hf with rfl | h
      · simp [joinWith]
      · cases h
    | cons b tl2 =>
      have hjoin : joinWith sep (a :: b :: tl2) = a ++ sep ++ joinWith sep (b :: tl2) := rfl
      rw [hjoin]
      simp only [String.length_append]
      rcases List.mem_cons.mp hf with rfl | h
      · omega
      · have := ih h
        omega

/-- A join containing a nonempty member is itself nonempty (as a `==`
falsity, matching the JavaScript truthiness test on the joined string). -/
theorem joinWith_beq_empty_false (sep f : String) (l : List String)
    (hf : f ∈ l) (hne : f ≠ "") : (joinWith sep l == "") = false := by
  have hlen : 0 < f.length := by
    cases f with
    | mk data =>
      cases data with
      | nil => simp at hne
      | cons c tl => simp [String.length]
  have hle := le_length_joinWith sep f l hf
  rw [beq_eq_false_iff_ne]
  intro h
  rw [h] at hle
  have h0 : ("" : String).length = 0 := rfl
  omega

/-- Invariants of the `checks()` directory scan: when every
`package.json`-named entry parses, the loop completes without raising; a
required name that labels no entry is never marked found; the loop touches
neither the configuration fields nor `startScript`; its only deductions are
the single `node_modules` penalty; and any manifest it records comes from a
`package.json`-named entry of the listing. -/
theorem checksLoop_inv :
    ∀ (entries : List Entry) (st : GraderState) (found : List String),
      (∀ ent ∈ entries, jsToLower ent.name = "package.json" →
        ∃ m, ent.json = Except.ok m) →
      ∃ st' found',
        checksLoop st found entries = ((st', found'), none)
        ∧ (∀ g, g ∉ found → (∀ ent ∈ entries, ent.name ≠ g) → g ∉ found')
        ∧ st'.requiredFiles = st.requiredFiles
        ∧ st'.startScript = st.startScript
        ∧ st'.checkPackage = st.checkPackage
        ∧ st'.defaultStartScript = st.defaultStartScript
        ∧ st'.hasDatabase = st.hasDatabase
        ∧ st'.requiredCollections = st.requiredCollections
        ∧ st'.runStartScript = st.runStartScript
        ∧ (∀ c ∈ st'.comments, c ∈ st.comments
            ∨ c = deductComment 5 "Included node_modules in submission." none)
        ∧ (∀ m, st'.packageJson = some m → st.packageJson = some m
            ∨ ∃ ent ∈ entries, jsToLower ent.name = "package.json"
                ∧ ent.json = Except.ok m) := by
  intro entries
  induction entries with
  | nil =>
    intro st found _
    exact ⟨st, found, rfl, fun g hg _ => hg, rfl, rfl, rfl, rfl, rfl, rfl, rfl,
      fun c hc => Or.inl hc, fun m hm => Or.inl hm⟩
  | cons ent rest ih =>
    intro st found hparse
    have hparse' : ∀ x ∈ rest, jsToLower x.name = "package.json" →
        ∃ m, x.json = Except.ok m :=
      fun x hx => hparse x (List.mem_cons_of_mem ent hx)
    by_cases h1 : (!st.hadModules && ent.isDir && (ent.name == "node_modules")) = true
    · -- node_modules branch: flag, deduct 5, continue
      obtain ⟨st', found', heq, hfound, hframe⟩ :=
        ih (deductPoints { st with hadModules := true } 5
          "Included node_modules in submission." none) found hparse'
      refine ⟨st', found', ?_, ?_, ?_⟩
      · simp only [checksLoop, h1, if_true]
        exact heq
      · intro g hg habs
        exact hfound g hg (fun x hx => habs x (List.mem_cons_of_mem ent hx))
      · obtain ⟨f1, f2, f3, f4, f5, f6, f7, hcm, hpj⟩ := hframe
        refine ⟨f1, f2, f3, f4, f5, f6, f7, ?_, ?_⟩
        · intro c hc
          rcases hcm c hc with h | h
          · rw [deductPoints_comments] at h
            rcases List.mem_append.mp h with h | h
            · exact Or.inl h
            · exact Or.inr (List.mem_singleton.mp h)
          · exact Or.inr h
        · intro m hm
          rcases hpj m hm with h | ⟨x, hx, hxn, hxj⟩
          · exact Or.inl h
          · exact Or.inr ⟨x, List.mem_cons_of_mem ent hx, hxn, hxj⟩
    · by_cases h2 : (st.hadModules && strIncludes ent.path "node_modules") = true
      · -- skip branch
        obtain ⟨st', found', heq, hfound, hframe⟩ := ih st found hparse'
        refine ⟨st', found', ?_, ?_, ?_⟩
        · simp only [checksLoop, h1, h2]
          simp only [Bool.false_eq_true, if_false, if_true]
          exact heq
        · intro g hg habs
          exact hfound g hg (fun x hx => habs x (List.mem_cons_of_mem ent hx))
        · obtain ⟨f1, f2, f3, f4, f5, f6, f7, hcm, hpj⟩ := hframe
          refine ⟨f1, f2, f3, f4, f5, f6, f7, hcm, ?_⟩
          intro m hm
          rcases hpj m hm with h | ⟨x, hx, hxn, hxj⟩
          · exact Or.inl h
          · exact Or.inr ⟨x, List.mem_cons_of_mem ent hx, hxn, hxj⟩
      · by_cases h3 : (jsToLower ent.name == "package.json") = true
        · -- package.json branch: record manifest, re-root directory
          have h3' : jsToLower ent.name = "package.json" := by simpa using h3
          obtain ⟨mf, hmf⟩ := hparse ent (List.mem_cons_self ent rest) h3'
          obtain ⟨st', found', heq, hfound, hframe⟩ :=
            ih { st with directory := ent.path, packageJson := some mf } found hparse'
          refine ⟨st', found', ?_, ?_, ?_⟩
          · simp only [checksLoop, h1, h2, h3]
            simp only [Bool.false_eq_true, if_false, if_true, hmf]
            exact heq
          · intro g hg habs
            exact hfound g hg (fun x hx => habs x (List.mem_cons_of_mem ent hx))
          · obtain ⟨f1, f2, f3, f4, f5, f6, f7, hcm, hpj⟩ := hframe
            refine ⟨f1, f2, f3, f4, f5, f6, f7, hcm, ?_⟩
            intro m hm
            rcases hpj m hm with h | ⟨x, hx, hxn, hxj⟩
            · simp only at h
              cases h
              exact Or.inr ⟨ent, List.mem_cons_self ent rest, h3', hmf⟩
            · exact Or.inr ⟨x, List.mem_cons_of_mem ent hx, hxn, hxj⟩
        · by_cases h4 : (st.requiredFiles.contains ent.name) = true
          · -- required-file branch: mark found, maybe re-root directory
            obtain ⟨st', found', heq, hfound, hframe⟩ :=
              ih (if st.packageJson.isNone then { st with directory := ent.path } else st)
                (ent.name :: found) hparse'
            refine ⟨st', found', ?_, ?_, ?_⟩
            · simp only [checksLoop, h1, h2, h3, h4]
              simp only [Bool.false_eq_true, if_false, if_true]
              exact heq
            · intro g hg habs
              have hgne : ent.name ≠ g := habs ent (List.mem_cons_self ent rest)
              have hg' : g ∉ ent.name :: found := by
                intro hmem
                rcases List.mem_cons.mp hmem with h | h
                · exact hgne h.symm
                · exact hg h
              exact hfound g hg' (fun x hx => habs x (List.mem_cons_of_mem ent hx))
            · obtain ⟨f1, f2, f3, f4, f5, f6, f7, hcm, hpj⟩ := hframe
              by_cases hpn : st.packageJson.isNone = true <;>
                simp only [hpn, Bool.false_eq_true, if_true, if_false] at f1 f2 f3 f4 f5 f6 f7 hcm hpj <;>
                refine ⟨f1, f2, f3, f4, f5, f6, f7, hcm, ?_⟩ <;>
                intro m hm <;>
                rcases hpj m hm with h | ⟨x, hx, hxn, hxj⟩
              · exact Or.inl h
              · exact Or.inr ⟨x, List.mem_cons_of_mem ent hx, hxn, hxj⟩
              · exact Or.inl h
              · exact Or.inr ⟨x, List.mem_cons_of_mem ent hx, hxn, hxj⟩
          · -- no-op branch
            obtain ⟨st', found', heq, hfound, hframe⟩ := ih st found hparse'
            refine ⟨st', found', ?_, ?_, ?_⟩
            · simp only [checksLoop, h1, h2, h3, h4]
              simp only [Bool.false_eq_true, if_false]
              exact heq
            · intro g hg habs
              exact hfound g hg (fun x hx => habs x (List.mem_cons_of_mem ent hx))
            · obtain ⟨f1, f2, f3, f4, f5, f6, f7, hcm, hpj⟩ := hframe
              refine ⟨f1, f2, f3, f4, f5, f6, f7, hcm, ?_⟩
              intro m hm
              rcases hpj m hm with h | ⟨x, hx, hxn, hxj⟩
              · exact Or.inl h
              · exact Or.inr ⟨x, List.mem_cons_of_mem ent hx, hxn, hxj⟩

/-- The manifest-check step never touches the configuration fields. -/
theorem checkPackageStep_frame (st : GraderState) :
    (checkPackageStep st).requiredFiles = st.requiredFiles
      ∧ (checkPackageStep st).requiredCollections = st.requiredCollections
      ∧ (checkPackageStep st).hasDatabase = st.hasDatabase
      ∧ (checkPackageStep st).runStartScript = st.runStartScript
      ∧ (checkPackageStep st).defaultStartScript = st.defaultStartScript
      ∧ (checkPackageStep st).packageJson = st.packageJson := by
  unfold checkPackageStep
  by_cases h : st.checkPackage
  · simp only [h, if_true]
    cases hp : st.packageJson with
    | none => simp [deductPoints, hp]
    | some mf =>
      by_cases ht : (!jsTruthyStr mf.type || !(mf.type == some "module")) = true <;>
      by_cases ha : jsTruthyStr mf.author = true <;>
      by_cases hs : jsTruthyStr mf.scriptsStart = true <;>
      simp [ht, ha, hs, deductPoints, hp]
  · simp [h]

/-- The manifest-check step only ever appends the missing-manifest or
missing-start-script deduction comments. -/
theorem checkPackageStep_comments (st : GraderState) :
    ∀ c ∈ (checkPackageStep st).comments, c ∈ st.comments
      ∨ c = deductComment 5 "Missing package.json file." none
      ∨ c = deductComment 5 "Missing start script in package.json file." none := by
  unfold checkPackageStep
  by_cases h : st.checkPackage
  · simp only [h, if_true]
    cases hp : st.packageJson with
    | none =>
      intro c hc
      simp only [deductPoints] at hc
      simp only [List.mem_append, List.mem_singleton] at hc
      rcases hc with hc | hc
      · exact Or.inl hc
      · exact Or.inr (Or.inl hc)
    | some mf =>
      by_cases ht : (!jsTruthyStr mf.type || !(mf.type == some "module")) = true <;>
      by_cases ha : jsTruthyStr mf.author = true <;>
      by_cases hs : jsTruthyStr mf.scriptsStart = true <;>
      (intro c hc; simp [hp, ht, ha, hs, deductPoints] at hc; tauto)
  · simp only [h, Bool.false_eq_true, if_false]
    exact fun c hc => Or.inl hc

/-- C4: with a nonempty `requiredFiles` set, a (nonempty-named) required
file labelling no entry of the extracted tree makes `checks()` raise
`Missing file(s): ...` naming it — and every other absent required file —
while recording no deduction beyond the fixed manifest/`node_modules`
penalties; `run()` then returns that very error for every `testCases`
implementation, so no test case runs.  (The scan is assumed to get past
manifest parsing: every `package.json`-named entry parses.) -/
theorem checks_missing_required_file (cfg : Config) (sub : Submission)
    (f : String) (hf : f ∈ cfg.requiredFiles) (hne : f ≠ "")
    (habs : ∀ ent ∈ sub.entries, ent.name ≠ f)
    (hparse : ∀ ent ∈ sub.entries, jsToLower ent.name = "package.json" →
      ∃ m, ent.json = Except.ok m) :
    ∃ miss : List String,
      (checksModel cfg sub).2
          = some (.err ("Missing file(s): " ++ joinWith ", " miss))
        ∧ f ∈ miss
        ∧ (∀ g ∈ cfg.requiredFiles, (∀ ent ∈ sub.entries, ent.name ≠ g) →
            g ∈ miss)
        ∧ (∀ c ∈ (checksModel cfg sub).1.comments,
            c = deductComment 5 "Included node_modules in submission." none
            ∨ c = deductComment 5 "Missing package.json file." none
            ∨ c = deductComment 5 "Missing start script in package.json file." none)
        ∧ (∀ tc : TestCases, runModel cfg sub tc = checksModel cfg sub) := by
  obtain ⟨st', found', heq, hfound, hreq, -, -, -, -, -, -, hcm, -⟩ :=
    checksLoop_inv sub.entries (initGrader cfg) [] hparse
  have hreq' : (checkPackageStep st').requiredFiles = cfg.requiredFiles := by
    rw [(checkPackageStep_frame st').1, hreq]
    rfl
  set stc := checkPackageStep st' with hstc
  set miss := (objectKeys stc.requiredFiles).filter (fun g => !found'.contains g)
    with hmiss
  have hfmem : ∀ g ∈ cfg.requiredFiles, (∀ ent ∈ sub.entries, ent.name ≠ g) →
      g ∈ miss := by
    intro g hg hgabs
    rw [hmiss]
    rw [List.mem_filter]
    refine ⟨?_, ?_⟩
    · rw [hreq', mem_objectKeys]
      exact hg
    · have : g ∉ found' := hfound g (by simp) hgabs
      simp [this]
  have hfin : f ∈ miss := hfmem f hf habs
  have hjoin : (joinWith ", " miss == "") = false :=
    joinWith_beq_empty_false ", " f miss hfin hne
  have hcheck : checksModel cfg sub
      = (stc, some (.err ("Missing file(s): " ++ joinWith ", " miss))) := by
    unfold checksModel
    rw [heq]
    simp only [← hstc, ← hmiss, hjoin, Bool.not_false, if_true]
  refine ⟨miss, ?_, hfin, hfmem, ?_, ?_⟩
  · rw [hcheck]
  · rw [hcheck]
    intro c hc
    rcases checkPackageStep_comments st' c hc with h | h | h
    · rcases hcm c h with h2 | h2
      · have : (initGrader cfg).comments = [] := rfl
        rw [this] at h2
        cases h2
      · exact Or.inl h2
    · exact Or.inr (Or.inl h)
    · exact Or.inr (Or.inr h)
  · intro tc
    unfold runModel
    rw [hcheck]
    rfl

/-- Configuration for the missing-required-file witness. -/
def cfgC4 : Config := { requiredFiles := ["app.js"] }

/-- Witness for C4: requiring `app.js` of an empty extracted tree raises the
missing-file error naming it. -/
theorem checks_missing_required_file_witness :
    ∃ miss : List String,
      (checksModel cfgC4 { entries := [] }).2
          = some (.err ("Missing file(s): " ++ joinWith ", " miss))
        ∧ "app.js" ∈ miss := by
  obtain ⟨miss, h1, h2, -, -, -⟩ :=
    checks_missing_required_file cfgC4 { entries := [] } "app.js"
      (by simp [cfgC4]) (by decide) (by simp) (by simp)
  exact ⟨miss, h1, h2⟩

/-- A test-cases hook that raises nothing. -/
def tcPass : TestCases := fun s => (s, none)

/-- C6 counterexample: with no configured start command
(`cfgC3.startScript = none`), no manifest at all, and the start script set to
run, `checks()` completes without raising any error and installs the
built-in fallback `node app.js`; the full lifecycle also runs to completion.
The claimed configuration error is never raised by the current source (that
throw exists only in an older revision of `checks()`). -/
theorem startscript_no_config_error_counterexample :
    (checksModel cfgC3 subOk).2 = none
      ∧ (checksModel cfgC3 subOk).1.startScript = some "node app.js"
      ∧ (runModel cfgC3 subOk tcPass).2 = none :=
  ⟨rfl, rfl, rfl⟩

/-- When `checkPackage` is enabled and the manifest is absent or has no
truthy start script, the manifest-check step falls back to the configured
default start command. -/
theorem checkPackageStep_fallback (st : GraderState)
    (hcp : st.checkPackage = true)
    (hm : st.packageJson = none
      ∨ ∃ m, st.packageJson = some m ∧ jsTruthyStr m.scriptsStart = false) :
    (checkPackageStep st).startScript = some st.defaultStartScript := by
  unfold checkPackageStep
  rcases hm with hm | ⟨m, hm, hns⟩
  · simp [hcp, hm, deductPoints]
  · by_cases ht : (!jsTruthyStr m.type || !(m.type == some "module")) = true <;>
    by_cases ha : jsTruthyStr m.author = true <;>
    simp [hcp, hm, hns, ht, ha, deductPoints]

/-- C6 (amended): for every submission whose manifest is absent or lacks a
truthy `scripts.start`, and every configuration without a configured
default start command, the current `checks()` does not raise a
configuration error: it proceeds with the built-in fallback `node app.js`
as the resolved start command (the missing manifest or missing start script
costs 5 points instead).  Only the older revision of `checks()` threw
`Student did not provide start script and no default was provided.`, and
only when `runStartScript` was set. -/
theorem startscript_fallback_instead_of_error (cfg : Config) (sub : Submission)
    (hstart : cfg.startScript = none)
    (hcp : (initGrader cfg).checkPackage = true)
    (hparse : ∀ ent ∈ sub.entries, jsToLower ent.name = "package.json" →
      ∃ m, ent.json = Except.ok m)
    (hns : ∀ ent ∈ sub.entries, jsToLower ent.name = "package.json" →
      ∀ m, ent.json = Except.ok m → jsTruthyStr m.scriptsStart = false) :
    (checksModel cfg sub).1.startScript = some "node app.js" := by
  obtain ⟨st', found', heq, -, -, -, hcpk, hdss, -, -, -, -, hpj⟩ :=
    checksLoop_inv sub.entries (initGrader cfg) [] hparse
  have hfst : (checksModel cfg sub).1 = checkPackageStep st' := by
    unfold checksModel
    rw [heq]
    dsimp only
    split
    · rfl
    · split
      · rfl
      · split
        · rfl
        · rfl
  have hcp' : st'.checkPackage = true := by rw [hcpk]; exact hcp
  have hdss' : st'.defaultStartScript = "node app.js" := by
    rw [hdss]
    show jsOrStr cfg.startScript "node app.js" = "node app.js"
    rw [hstart]
    rfl
  have hm : st'.packageJson = none
      ∨ ∃ m, st'.packageJson = some m ∧ jsTruthyStr m.scriptsStart = false := by
    cases hpk : st'.packageJson with
    | none => exact Or.inl rfl
    | some m =>
      rcases hpj m hpk with h | ⟨ent, hent, hname, hjson⟩
      · exact absurd h (by simp [initGrader])
      · exact Or.inr ⟨m, rfl, hns ent hent hname m hjson⟩
  rw [hfst, checkPackageStep_fallback st' hcp' hm, hdss']

/-- Witness for the amended C6 at a concrete input: manifest present but
with no start script, no configured default — checks resolves the fallback
`node app.js`. -/
theorem startscript_fallback_instead_of_error_witness :
    (checksModel cfgC3
        { entries := [{ name := "package.json",
                        json := Except.ok { type := some "module" } }] }).1.startScript
      = some "node app.js" :=
  startscript_fallback_instead_of_error cfgC3
    { entries := [{ name := "package.json", json := Except.ok { type := some "module" } }] }
    rfl rfl
    (by intro ent hent h
        simp only [List.mem_singleton] at hent
        exact ⟨{ type := some "module" }, by rw [hent]⟩)
    (by intro ent hent h m hm
        simp only [List.mem_singleton] at hent
        subst hent
        simp only [Except.ok.injEq] at hm
        subst hm
        rfl)

/-- The `checks()` scan never assigns `startScript`, `checkPackage` or
`runStartScript`, whether it completes or raises. -/
theorem checksLoop_frame :
    ∀ (entries : List Entry) (st : GraderState) (found : List String),
      (checksLoop st found entries).1.1.startScript = st.startScript
        ∧ (checksLoop st found entries).1.1.checkPackage = st.checkPackage
        ∧ (checksLoop st found entries).1.1.runStartScript = st.runStartScript := by
  intro entries
  induction entries with
  | nil => intro st found; exact ⟨rfl, rfl, rfl⟩
  | cons ent rest ih =>
    intro st found
    by_cases h1 : (!st.hadModules && ent.isDir && (ent.name == "node_modules")) = true
    · obtain ⟨a1, a2, a3⟩ :=
        ih (deductPoints { st with hadModules := true } 5
          "Included node_modules in submission." none) found
      simp only [checksLoop, h1, if_true]
      exact ⟨a1, a2, a3⟩
    · by_cases h2 : (st.hadModules && strIncludes ent.path "node_modules") = true
      · obtain ⟨a1, a2, a3⟩ := ih st found
        simp only [checksLoop, h1, h2, Bool.false_eq_true, if_false, if_true]
        exact ⟨a1, a2, a3⟩
      · by_cases h3 : (jsToLower ent.name == "package.json") = true
        · cases hj : ent.json with
          | error m =>
            simp only [checksLoop, h1, h2, h3, Bool.false_eq_true, if_false,
              if_true, hj]
            refine ⟨?_, ?_, ?_⟩ <;> trivial
          | ok mf =>
            obtain ⟨a1, a2, a3⟩ :=
              ih { st with directory := ent.path, packageJson := some mf } found
            simp only [checksLoop, h1, h2, h3, Bool.false_eq_true, if_false,
              if_true, hj]
            exact ⟨a1, a2, a3⟩
        · by_cases h4 : (st.requiredFiles.contains ent.name) = true
          · have hproj :
                (if st.packageJson.isNone then { st with directory := ent.path }
                  else st).startScript = st.startScript
                ∧ (if st.packageJson.isNone then { st with directory := ent.path }
                  else st).checkPackage = st.checkPackage
                ∧ (if st.packageJson.isNone then { st with directory := ent.path }
                  else st).runStartScript = st.runStartScript := by
              by_cases hpn : st.packageJson.isNone = true <;> simp [hpn]
            obtain ⟨a1, a2, a3⟩ :=
              ih (if st.packageJson.isNone then { st with directory := ent.path }
                else st) (ent.name :: found)
            simp only [checksLoop, h1, h2, h3, h4, Bool.false_eq_true, if_false,
              if_true]
            exact ⟨a1.trans hproj.1, a2.trans hproj.2.1, a3.trans hproj.2.2⟩
          · obtain ⟨a1, a2, a3⟩ := ih st found
            simp only [checksLoop, h1, h2, h3, h4, Bool.false_eq_true, if_false]
            exact ⟨a1, a2, a3⟩

/-- With `checkPackage` disabled, `checks()` leaves `startScript` at its
`null` initial value (it is assigned only inside the manifest-check block)
and `runStartScript` at its configured value. -/
theorem checksModel_no_checkpackage (cfg : Config) (sub : Submission)
    (hcp : cfg.checkPackage = some false) :
    (checksModel cfg sub).1.startScript = none
      ∧ (checksModel cfg sub).1.runStartScript = cfg.runStartScript := by
  rcases hl : checksLoop (initGrader cfg) [] sub.entries with ⟨⟨stL, fnd⟩, r⟩
  have hfr := checksLoop_frame sub.entries (initGrader cfg) []
  rw [hl] at hfr
  obtain ⟨hss, hcpk, hrs⟩ := hfr
  have hcpL : stL.checkPackage = false := by
    rw [hcpk]
    show cfg.checkPackage.getD true = false
    rw [hcp]
    rfl
  cases r with
  | some e =>
    have hcm : checksModel cfg sub = (stL, some e) := by
      unfold checksModel
      rw [hl]
    rw [hcm]
    exact ⟨hss, hrs⟩
  | none =>
    have hid : checkPackageStep stL = stL := by
      unfold checkPackageStep
      simp [hcpL]
    have hfst : (checksModel cfg sub).1 = stL := by
      unfold checksModel
      rw [hl]
      dsimp only
      rw [hid]
      split
      · rfl
      · split
        · rfl
        · split
          · rfl
          · rfl
    rw [hfst]
    exact ⟨hss, hrs⟩

/-- C10: with `checkPackage` disabled and `runStartScript` enabled, `run()`
always raises before the test cases: the lifecycle outcome does not depend
on the supplied `testCases` hook at all, some error is always raised, and
whenever `checks()` and the database setup succeed that error is exactly the
`TypeError` from calling `split` on the `null` start script. -/
theorem run_unreachable_start_without_checkpackage (cfg : Config)
    (sub : Submission) (hcp : cfg.checkPackage = some false)
    (hrs : cfg.runStartScript = true) :
    (∀ tc : TestCases, ∃ e, (runModel cfg sub tc).2 = some e)
      ∧ (∀ tc1 tc2 : TestCases, runModel cfg sub tc1 = runModel cfg sub tc2)
      ∧ ((checksModel cfg sub).2 = none → sub.dbSetupError = none →
          ∀ tc : TestCases, (runModel cfg sub tc).2 = some nullSplitTypeError) := by
  obtain ⟨hss, hrsm⟩ := checksModel_no_checkpackage cfg sub hcp
  have hmaster : ∃ out : GraderState × Option GraderError,
      (∀ tc : TestCases, runModel cfg sub tc = out)
        ∧ (∃ e, out.2 = some e)
        ∧ ((checksModel cfg sub).2 = none → sub.dbSetupError = none →
            out.2 = some nullSplitTypeError) := by
    rcases hc : checksModel cfg sub with ⟨st1, r1⟩
    rw [hc] at hss hrsm
    cases r1 with
    | some e =>
      refine ⟨(st1, some e), ?_, ⟨e, rfl⟩, ?_⟩
      · intro tc
        unfold runModel
        rw [hc]
        rfl
      · intro h
        simp at h
    | none =>
      have hss1 : st1.startScript = none := hss
      have hrs1 : st1.runStartScript = true := by
        have h := hrsm
        simp only at h
        rw [h, hrs]
      by_cases hdb : st1.hasDatabase = true
      · cases hnd : sub.dbSetupError with
        | some m =>
          refine ⟨(st1, some (.err m)), ?_, ⟨.err m, rfl⟩, ?_⟩
          · intro tc
            unfold runModel
            rw [hc]
            simp [bindStep, hdb, setupDatabaseModel, hnd]
          · intro _ h
            simp at h
        | none =>
          refine ⟨({ st1 with db := true }, some nullSplitTypeError), ?_,
            ⟨nullSplitTypeError, rfl⟩, fun _ _ => rfl⟩
          intro tc
          unfold runModel
          rw [hc]
          simp [bindStep, hdb, setupDatabaseModel, hnd, startModel, hrs1, hss1]
      · refine ⟨(st1, some nullSplitTypeError), ?_,
          ⟨nullSplitTypeError, rfl⟩, fun _ _ => rfl⟩
        intro tc
        unfold runModel
        rw [hc]
        simp [bindStep, hdb, startModel, hrs1, hss1]
  obtain ⟨out, hall, ⟨e, he⟩, hty⟩ := hmaster
  refine ⟨?_, ?_, ?_⟩
  · intro tc
    rw [hall tc]
    exact ⟨e, he⟩
  · intro tc1 tc2
    rw [hall tc1, hall tc2]
  · intro h1 h2 tc
    rw [hall tc]
    exact hty h1 h2

/-- Configuration for the C10 witness: package checking off, start script
on. -/
def cfgC10 : Config := { runStartScript := true, checkPackage := some false }

/-- Witness for C10: on an empty submission the run fails with the
null-`split` `TypeError`, identically for two different test-case hooks. -/
theorem run_unreachable_start_witness :
    (runModel cfgC10 subOk tcPass).2 = some nullSplitTypeError
      ∧ runModel cfgC10 subOk tcPass = runModel cfgC10 subOk tcBoom :=
  ⟨(run_unreachable_start_without_checkpackage cfgC10 subOk rfl rfl).2.2 rfl rfl
      tcPass,
    (run_unreachable_start_without_checkpackage cfgC10 subOk rfl rfl).2.1 tcPass
      tcBoom⟩

/-- A character list shorter than 24 has no 24-character window. -/
theorem hasHex24_false_of_lt : ∀ l : List Char, l.length < 24 → hasHex24 l = false := by
  intro l
  induction l with
  | nil => intro _; rfl
  | cons c tl ih =>
    intro h
    have h1 : ((c :: tl).take 24).length ≠ 24 := by
      rw [List.length_take]
      simp only [List.length_cons] at h ⊢
      omega
    have htl : tl.length < 24 := by
      simp only [List.length_cons] at h
      omega
    have hb : (((c :: tl).take 24).length == 24) = false := by
      rw [beq_eq_false_iff_ne]
      exact h1
    simp only [hasHex24, ih htl, Bool.or_false, hb, Bool.false_and]

/-- On a list of length exactly 24, the window test degenerates to an
all-characters test: the only window is the whole list. -/
theorem hasHex24_eq_all_of_len (l : List Char) (h : l.length = 24) :
    hasHex24 l = l.all isLowerHex := by
  cases l with
  | nil => simp at h
  | cons c tl =>
    have htake : (c :: tl).take 24 = c :: tl := by
      rw [← h]
      exact List.take_length _
    have htl : hasHex24 tl = false := by
      apply hasHex24_false_of_lt
      simp only [List.length_cons] at h
      omega
    simp only [hasHex24, htake, h, htl, Bool.or_false]
    simp

/-- The ledger state produced when the `_id` validation inside
`assertWithoutId` throws and `assertDeepEquals` converts the throw into a
full deduction. -/
def invalidIdFailure (st : GraderState) (points : Int) (url method : String) :
    GraderState :=
  deductPoints st points
    (jsToUpper method ++ " " ++ url ++ "; Error thrown on valid input.")
    (some "Invalid value provided for \x27_id\x27.")

/-- C8: on a 200 JSON-object response, `assertRequestDeepEqualsWithoutId`
deducts nothing and returns the `_id` string when that field is a
24-character lowercase-hex string and the body without it deep-equals the
expected value; when `_id` is missing, not a string, of length other than
24, or (at length 24) contains a non-hex character, the wrapped probe
throws and the full points are deducted. -/
theorem assertRequestWithoutId_spec (st : GraderState) (points : Int)
    (url method text : String) (fs : JsObj) (expected : JsValue) :
    (∀ s : String, lookupObj "_id" fs = some (.str s) → s.length = 24 →
      s.data.all isLowerHex = true →
      deepEq (.obj (deleteObj "_id" fs)) expected = true →
      assertRequestDeepEqualsWithoutId st points url method 200 text
          (some (.obj fs)) expected
        = (st, some (.str s)))
    ∧ (lookupObj "_id" fs = none →
      assertRequestDeepEqualsWithoutId st points url method 200 text
          (some (.obj fs)) expected
        = (invalidIdFailure st points url method, none))
    ∧ (∀ v, lookupObj "_id" fs = some v → (∀ s, v ≠ .str s) →
      assertRequestDeepEqualsWithoutId st points url method 200 text
          (some (.obj fs)) expected
        = (invalidIdFailure st points url method, some v))
    ∧ (∀ s : String, lookupObj "_id" fs = some (.str s) → s.length ≠ 24 →
      assertRequestDeepEqualsWithoutId st points url method 200 text
          (some (.obj fs)) expected
        = (invalidIdFailure st points url method, some (.str s)))
    ∧ (∀ s : String, lookupObj "_id" fs = some (.str s) → s.length = 24 →
      s.data.all isLowerHex = false →
      assertRequestDeepEqualsWithoutId st points url method 200 text
          (some (.obj fs)) expected
        = (invalidIdFailure st points url method, some (.str s))) := by
  have hstep : assertRequestDeepEqualsWithoutId st points url method 200 text
      (some (.obj fs)) expected
      = assertWithoutId st points (jsToUpper method ++ " " ++ url)
          (.ok (.obj fs)) expected := by
    unfold assertRequestDeepEqualsWithoutId
    norm_num
  refine ⟨?_, ?_, ?_, ?_, ?_⟩
  · intro s hid h24 hall hdeep
    rw [hstep]
    unfold assertWithoutId
    have hhex : hasHex24 s.toList = true := by
      have : s.toList.length = 24 := h24
      rw [hasHex24_eq_all_of_len s.toList this]
      exact hall
    simp only [isObjectLike, getField, hid, h24, hhex, if_true]
    simp only [assertDeepEquals, deleteField]
    simp [hdeep]
  · intro hid
    rw [hstep]
    unfold assertWithoutId
    simp only [isObjectLike, getField, hid, if_true]
    rfl
  · intro v hid hns
    rw [hstep]
    unfold assertWithoutId
    simp only [isObjectLike, getField, hid, if_true]
    cases v with
    | str s => exact absurd rfl (hns s)
    | null => rfl
    | bool b => rfl
    | num n => rfl
    | arr a => rfl
    | obj o => rfl
  · intro s hid h24
    rw [hstep]
    unfold assertWithoutId
    have hb : (s.length == 24) = false := by simp [h24]
    simp only [isObjectLike, getField, hid, hb, Bool.false_and, Bool.false_eq_true,
      if_false, if_true]
    rfl
  · intro s hid h24 hall
    rw [hstep]
    unfold assertWithoutId
    have hhex : hasHex24 s.toList = false := by
      have : s.toList.length = 24 := h24
      rw [hasHex24_eq_all_of_len s.toList this]
      exact hall
    have hb : (s.length == 24) = true := by simp [h24]
    simp only [isObjectLike, getField, hid, hb, hhex, Bool.and_false,
      Bool.false_eq_true, if_false, if_true]
    rfl

/-- Response body used in the identifier-stripping witness. -/
def fsC8 : JsObj :=
  .cons "_id" (.str "507f191e810c19729de860ea") (.cons "name" (.str "x") .nil)

/-- Response body with a malformed (too short) identifier. -/
def fsC8bad : JsObj := .cons "_id" (.str "xyz") (.cons "name" (.str "x") .nil)

/-- Expected value (the body without its `_id`). -/
def expC8 : JsValue := .obj (.cons "name" (.str "x") .nil)

/-- Witness for C8 at the spec's example: the 24-hex `_id` is stripped and
returned with no deduction; a 3-character `_id` fails the probe and costs
the full points. -/
theorem assertRequestWithoutId_spec_witness :
    assertRequestDeepEqualsWithoutId (initGrader {}) 10 "/posts" "post" 200 "t"
        (some (.obj fsC8)) expC8
      = (initGrader {}, some (.str "507f191e810c19729de860ea"))
    ∧ assertRequestDeepEqualsWithoutId (initGrader {}) 10 "/posts" "post" 200 "t"
        (some (.obj fsC8bad)) expC8
      = (invalidIdFailure (initGrader {}) 10 "/posts" "post", some (.str "xyz")) :=
  ⟨(assertRequestWithoutId_spec (initGrader {}) 10 "/posts" "post" "t" fsC8
      expC8).1 "507f191e810c19729de860ea" rfl (by decide) (by decide) (by decide),
    (assertRequestWithoutId_spec (initGrader {}) 10 "/posts" "post" "t" fsC8bad
      expC8).2.2.2.1 "xyz" rfl (by decide)⟩
